import Mathlib

/-!
Verification development for the `hafas-rest-api-client` library (src/index.js).

The library is a thin HTTP client: it builds request URLs, merges query
parameters, assembles a request configuration, and post-processes successful
and failed responses.  This file gives a shallow embedding of that pipeline:

* JavaScript values are modelled by `JVal` (JSON values plus `undefined`),
  with JS truthiness, `typeof`, string coercion and property access.
* JavaScript object literals / `Object.fromEntries` are modelled by ordered
  association lists with last-write-wins insertion (`objInsert`,
  `objFromEntries`).
* The platform pieces the code calls into (`encodeURIComponent`,
  `qs.stringify` with `allowDots`, WHATWG `URL` resolution and
  `URLSearchParams`, `Headers.get`, the `content-type` parser) are modelled
  from their documented behaviour, since they are library inputs of the code
  under verification.
* The network itself is abstracted: the pipeline is split into the pure
  request-building phase (`buildRequest`) and the pure outcome-handling phase
  (`handleOutcome` / `enrichError`), connected by an oracle in `request`.
-/

namespace Hafas

/-- JavaScript values as used by this client: JSON values plus `undefined`.
Objects are ordered association lists (JS insertion order). -/
inductive JVal where
  | null
  | undefined
  | bool (b : Bool)
  | num (n : Int)
  | str (s : String)
  | arr (elems : List JVal)
  | obj (fields : List (String × JVal))

/-- JavaScript truthiness of a value (used by `if (!id) ...` guards). -/
def jsTruthy : JVal → Bool
  | .null => false
  | .undefined => false
  | .bool b => b
  | .num n => n != 0
  | .str s => s != ""
  | .arr _ => true
  | .obj _ => true

/-- JavaScript `typeof` (used by `'string' !== typeof stop`). -/
def jsTypeof : JVal → String
  | .null => "object"
  | .undefined => "undefined"
  | .bool _ => "boolean"
  | .num _ => "number"
  | .str _ => "string"
  | .arr _ => "object"
  | .obj _ => "object"

mutual

/-- JavaScript string coercion `String(v)` (used when values are spliced
into template literals and by the query-string encoder). -/
def jsToString : JVal → String
  | .null => "null"
  | .undefined => "undefined"
  | .bool b => if b then "true" else "false"
  | .num n => toString n
  | .str s => s
  | .arr xs => jsArrToString xs
  | .obj _ => "[object Object]"

/-- Array coercion: elements joined with a comma (`Array.prototype.join`). -/
def jsArrToString : List JVal → String
  | [] => ""
  | [x] => jsArrElem x
  | x :: rest => jsArrElem x ++ "," ++ jsArrToString rest

/-- Element rendering inside `Array.prototype.join`: `null` and `undefined`
render as the empty string. -/
def jsArrElem : JVal → String
  | .null => ""
  | .undefined => ""
  | .bool b => if b then "true" else "false"
  | .num n => toString n
  | .str s => s
  | .arr xs => jsArrToString xs
  | .obj _ => "[object Object]"

end

/-- Last binding of a key in an entry list.  JS object construction and
`JSON.parse` are last-write-wins, so the surviving value of a duplicated key
is the last one. -/
def lookupLast {α : Type} : List (String × α) → String → Option α
  | [], _ => none
  | p :: rest, k => (lookupLast rest k).or (if p.1 = k then some p.2 else none)

/-- JavaScript property access `v[k]`, modelled three-valued:
`none` means the access throws (property read on `null`/`undefined`);
`some .undefined` means the property is absent; `some v` is the value. -/
def jsProp : JVal → String → Option JVal
  | .null, _ => none
  | .undefined, _ => none
  | .obj fields, k => some ((lookupLast fields k).getD .undefined)
  | _, _ => some .undefined

/-- Assignment `o[k] = v` on an ordered object: replaces the value at the
first occurrence of `k` (keeping its position), or appends a new entry. -/
def objInsert {α : Type} : List (String × α) → String → α → List (String × α)
  | [], k, v => [(k, v)]
  | p :: rest, k, v => if p.1 = k then (k, v) :: rest else p :: objInsert rest k v

/-- Left fold of `objInsert` over an entry list, starting from `acc`.
This is JS object-literal construction with spreads: entries are assigned in
order and later entries win on key collisions. -/
def objSpread {α : Type} (acc : List (String × α)) : List (String × α) → List (String × α)
  | [] => acc
  | (k, v) :: rest => objSpread (objInsert acc k v) rest

/-- `Object.fromEntries(l)`: build an object by assigning the entries in
order; duplicate keys are collapsed, the last value wins. -/
def objFromEntries {α : Type} (l : List (String × α)) : List (String × α) :=
  objSpread [] l

/-- Property lookup on an object (first occurrence; objects built by
`objFromEntries`/`objSpread` have no duplicate keys). -/
def objLookup {α : Type} : List (String × α) → String → Option α
  | [], _ => none
  | p :: rest, k => if p.1 = k then some p.2 else objLookup rest k

/-- The key list of an object, in property order. -/
def objKeys {α : Type} (o : List (String × α)) : List String :=
  o.map Prod.fst

/-! ### Byte-level text encodings -/

/-- UTF-8 encoding of one scalar value, as byte values. -/
def utf8Encode (c : Char) : List Nat :=
  let n := c.toNat
  if n < 0x80 then [n]
  else if n < 0x800 then [0xC0 + n / 64, 0x80 + n % 64]
  else if n < 0x10000 then [0xE0 + n / 4096, 0x80 + n / 64 % 64, 0x80 + n % 64]
  else [0xF0 + n / 262144, 0x80 + n / 4096 % 64, 0x80 + n / 64 % 64, 0x80 + n % 64]

/-- The UTF-8 bytes of a string. -/
def strUtf8Bytes (s : String) : List Nat :=
  s.toList.flatMap utf8Encode

/-- Uppercase hex digit for a value below 16. -/
def hexUpper (n : Nat) : Char :=
  if n < 10 then Char.ofNat (48 + n) else Char.ofNat (55 + n)

/-- Percent-encoding of one byte: a percent sign and two uppercase hex digits. -/
def pctEncodeByte (b : Nat) : List Char :=
  ['%', hexUpper (b / 16), hexUpper (b % 16)]

/-- Characters `encodeURIComponent` leaves unescaped:
`A-Z a-z 0-9 - _ . ! ~ * ( )` and the apostrophe. -/
def encodeURIComponentKeeps (c : Char) : Bool :=
  c.isAlpha || c.isDigit || c = '-' || c = '_' || c = '.' || c = '!' || c = '~' ||
    c = '*' || c = '(' || c = ')' || c = Char.ofNat 39

/-- ECMAScript `encodeURIComponent`: unreserved characters are kept, every
other character is replaced by the percent-encoding of its UTF-8 bytes. -/
def encodeURIComponent (s : String) : String :=
  String.mk (s.toList.flatMap fun c =>
    if encodeURIComponentKeeps c then [c] else (utf8Encode c).flatMap pctEncodeByte)

/-- Characters the `qs` RFC 3986 encoder leaves unescaped:
`A-Z a-z 0-9 - . _ ~`. -/
def qsEncodeKeeps (c : Char) : Bool :=
  c.isAlpha || c.isDigit || c = '-' || c = '.' || c = '_' || c = '~'

/-- The `qs` default (RFC 3986) component encoder. -/
def qsEncode (s : String) : String :=
  String.mk (s.toList.flatMap fun c =>
    if qsEncodeKeeps c then [c] else (utf8Encode c).flatMap pctEncodeByte)

/-- Hex digit value of an ASCII byte, if it is one. -/
def hexValOfByte (b : Nat) : Option Nat :=
  if 48 ≤ b ∧ b ≤ 57 then some (b - 48)
  else if 65 ≤ b ∧ b ≤ 70 then some (b - 55)
  else if 97 ≤ b ∧ b ≤ 102 then some (b - 87)
  else none

/-- `application/x-www-form-urlencoded` byte decoding: `+` becomes a space
and `%XX` becomes the byte `XX`; malformed escapes pass through. -/
def pctPlusDecode : List Nat → List Nat
  | [] => []
  | 0x2B :: rest => 0x20 :: pctPlusDecode rest
  | 0x25 :: a :: b :: rest =>
    match hexValOfByte a, hexValOfByte b with
    | some ha, some hb => (ha * 16 + hb) :: pctPlusDecode rest
    | _, _ => 0x25 :: pctPlusDecode (a :: b :: rest)
  | b :: rest => b :: pctPlusDecode rest

/-- Is `b` a UTF-8 continuation byte? -/
def isUtf8Cont (b : Nat) : Bool :=
  decide (0x80 ≤ b ∧ b < 0xC0)

/-- The Unicode replacement character. -/
def repChar : Char := Char.ofNat 0xFFFD

/-- Fuel-driven UTF-8 decoding with replacement characters on error
(the lossy decoding the URL standard prescribes). -/
def utf8DecodeGo : Nat → List Nat → List Char
  | 0, _ => []
  | _, [] => []
  | fuel + 1, b0 :: rest =>
    if b0 < 0x80 then Char.ofNat b0 :: utf8DecodeGo fuel rest
    else if 0xC2 ≤ b0 ∧ b0 < 0xE0 then
      match rest with
      | b1 :: rest2 =>
        if isUtf8Cont b1 then Char.ofNat ((b0 - 0xC0) * 64 + (b1 - 0x80)) :: utf8DecodeGo fuel rest2
        else repChar :: utf8DecodeGo fuel rest
      | [] => [repChar]
    else if 0xE0 ≤ b0 ∧ b0 < 0xF0 then
      match rest with
      | b1 :: b2 :: rest3 =>
        if isUtf8Cont b1 && isUtf8Cont b2 then
          let n := (b0 - 0xE0) * 4096 + (b1 - 0x80) * 64 + (b2 - 0x80)
          if 0x800 ≤ n ∧ ¬ (0xD800 ≤ n ∧ n < 0xE000) then Char.ofNat n :: utf8DecodeGo fuel rest3
          else repChar :: utf8DecodeGo fuel rest
        else repChar :: utf8DecodeGo fuel rest
      | _ => [repChar]
    else if 0xF0 ≤ b0 ∧ b0 < 0xF5 then
      match rest with
      | b1 :: b2 :: b3 :: rest4 =>
        if isUtf8Cont b1 && isUtf8Cont b2 && isUtf8Cont b3 then
          let n := (b0 - 0xF0) * 262144 + (b1 - 0x80) * 4096 + (b2 - 0x80) * 64 + (b3 - 0x80)
          if 0x10000 ≤ n ∧ n < 0x110000 then Char.ofNat n :: utf8DecodeGo fuel rest4
          else repChar :: utf8DecodeGo fuel rest
        else repChar :: utf8DecodeGo fuel rest
      | _ => [repChar]
    else repChar :: utf8DecodeGo fuel rest

/-- Lossy UTF-8 decoding of a byte list. -/
def utf8DecodeLossy (bytes : List Nat) : List Char :=
  utf8DecodeGo bytes.length bytes

/-- Form-urlencoded decoding of a character list
(used for `URLSearchParams` keys and values). -/
def formUrlDecodeChars (l : List Char) : String :=
  String.mk (utf8DecodeLossy (pctPlusDecode (l.flatMap utf8Encode)))

/-! ### `qs.stringify(obj, {allowDots: true})` -/

mutual

/-- Flattening of one value under a key path by `qs.stringify` with
`allowDots: true`: nested object fields extend the key with a dot, array
elements with a bracketed index; scalars emit one pair. `undefined` values
are skipped, `null` renders as an empty value. -/
def qsFlatten (key : String) : JVal → List (String × String)
  | .undefined => []
  | .null => [(key, "")]
  | .bool b => [(key, if b then "true" else "false")]
  | .num n => [(key, toString n)]
  | .str s => [(key, s)]
  | .obj fields => qsFlattenFields key fields
  | .arr elems => qsFlattenElems key 0 elems

/-- Flattening of the fields of a nested object: dotted key paths. -/
def qsFlattenFields (key : String) : List (String × JVal) → List (String × String)
  | [] => []
  | (k, v) :: rest => qsFlatten (key ++ "." ++ k) v ++ qsFlattenFields key rest

/-- Flattening of array elements: bracketed indices. -/
def qsFlattenElems (key : String) (i : Nat) : List JVal → List (String × String)
  | [] => []
  | v :: rest => qsFlatten (key ++ "[" ++ toString i ++ "]") v ++ qsFlattenElems key (i + 1) rest

end

/-- All key/value pairs `qs.stringify` emits for an object, in order,
before component encoding. -/
def stringifyPairs (o : List (String × JVal)) : List (String × String) :=
  o.flatMap fun kv => qsFlatten kv.1 kv.2

/-- `qs.stringify(o, {allowDots: true})`: the emitted pairs, component-encoded
and joined with `=` and `&`. -/
def stringifyQuery (o : List (String × JVal)) : String :=
  String.intercalate "&" ((stringifyPairs o).map fun p => qsEncode p.1 ++ "=" ++ qsEncode p.2)

/-! ### WHATWG URL (the platform `URL` class used by the code) -/

/-- A parsed URL: scheme, host, optional port, path and raw query string
(no fragment; the port is `none` when absent or equal to the scheme's
default). -/
structure URLRec where
  scheme : String
  host : String
  port : Option Nat := none
  path : String
  query : Option String
deriving DecidableEq

/-- Valid characters of a URL scheme after the first (which must be a letter). -/
def isSchemeChar (c : Char) : Bool :=
  c.isAlpha || c.isDigit || c = '+' || c = '-' || c = '.'

/-- Split the input into scheme characters and the remainder after the colon. -/
def takeSchemeAux : List Char → Option (List Char × List Char)
  | [] => none
  | c :: rest =>
    if c = ':' then some ([], rest)
    else if isSchemeChar c then (takeSchemeAux rest).map fun p => (c :: p.1, p.2)
    else none

/-- The special schemes of the URL standard. -/
def specialSchemes : List String :=
  ["http", "https", "ws", "wss", "ftp", "file"]

/-- Input preprocessing of the URL parser: strip tabs and newlines, trim
leading and trailing C0 controls and spaces. -/
def urlPreprocess (s : String) : List Char :=
  let l := s.toList.filter fun c => !(c == Char.ofNat 9 || c == Char.ofNat 10 || c == Char.ofNat 13)
  (((l.dropWhile fun c => c.toNat ≤ 0x20).reverse.dropWhile fun c => c.toNat ≤ 0x20)).reverse

/-- Split a character list at the first occurrence of `c`; the second
component is `none` when `c` does not occur. -/
def splitAtFirst (c : Char) : List Char → List Char × Option (List Char)
  | [] => ([], none)
  | x :: rest =>
    if x = c then ([], some rest)
    else
      let r := splitAtFirst c rest
      (x :: r.1, r.2)

/-- Split a character list on every occurrence of `c`. -/
def chSplitOnAux (c : Char) : List Char → List Char → List (List Char)
  | [], acc => [acc.reverse]
  | x :: rest, acc =>
    if x = c then acc.reverse :: chSplitOnAux c rest []
    else chSplitOnAux c rest (x :: acc)

/-- Split a character list on every occurrence of `c`. -/
def chSplitOn (c : Char) (l : List Char) : List (List Char) :=
  chSplitOnAux c l []

/-- Code points the URL standard forbids in a (domain) host. -/
def forbiddenHostChar (c : Char) : Bool :=
  c.toNat = 0 || " #/:<>?@[\\]^|".toList.contains c

/-- An ASCII hex digit. -/
def isHexChar (c : Char) : Bool :=
  c.isDigit || (97 ≤ c.toNat && c.toNat ≤ 102) || (65 ≤ c.toNat && c.toNat ≤ 70)

/-- One group of an IPv6 address: one to four hex digits. -/
def isHexGroup (l : List Char) : Bool :=
  !l.isEmpty && l.length ≤ 4 && l.all isHexChar

/-- One octet of a dotted IPv4 address: decimal, no leading zero, at most
255. -/
def isIPv4Octet (l : List Char) : Bool :=
  !l.isEmpty && l.length ≤ 3 && l.all Char.isDigit &&
    (l.length == 1 || l.headD 'x' != '0') &&
    l.foldl (fun a c => a * 10 + (c.toNat - 48)) 0 ≤ 255

/-- A dotted IPv4 suffix of an IPv6 address: four octets. -/
def isIPv4Suffix (l : List Char) : Bool :=
  match chSplitOn '.' l with
  | [a, b, c, d] => isIPv4Octet a && isIPv4Octet b && isIPv4Octet c && isIPv4Octet d
  | _ => false

/-- Split at the first `::`, when there is one. -/
def splitFirstDoubleColon : List Char → Option (List Char × List Char)
  | [] => none
  | ':' :: ':' :: rest => some ([], rest)
  | c :: rest => (splitFirstDoubleColon rest).map fun p => (c :: p.1, p.2)

/-- Validate a colon-separated run of IPv6 groups and count its pieces
(a trailing dotted IPv4 part counts as two); `none` on an invalid group. -/
def ipv6GroupsValid (ipv4LastAllowed : Bool) : List (List Char) → Option Nat
  | [] => some 0
  | [g] =>
    if isHexGroup g then some 1
    else if ipv4LastAllowed && isIPv4Suffix g then some 2
    else none
  | g :: rest =>
    if isHexGroup g then (ipv6GroupsValid ipv4LastAllowed rest).map (· + 1) else none

/-- Validity of the inside of a bracketed IPv6 host: either eight pieces
with no compression, or a single `::` with at most seven pieces around it;
a dotted IPv4 part may stand last. -/
def isIPv6 (l : List Char) : Bool :=
  match splitFirstDoubleColon l with
  | none =>
    match ipv6GroupsValid true (chSplitOn ':' l) with
    | some n => n == 8
    | none => false
  | some (left, right) =>
    if right.headD ' ' == ':' then false
    else if (splitFirstDoubleColon right).isSome then false
    else
      let lgs := if left.isEmpty then [] else chSplitOn ':' left
      let rgs := if right.isEmpty then [] else chSplitOn ':' right
      match ipv6GroupsValid false lgs, ipv6GroupsValid true rgs with
      | some nl, some nr => nl + nr ≤ 7
      | _, _ => false

/-- The port part after the colon: absent when empty, otherwise decimal
digits with a value of at most 65535; anything else fails the parse. -/
def parsePort (l : List Char) : Option (Option Nat) :=
  if l.isEmpty then some none
  else if l.all Char.isDigit then
    let n := l.foldl (fun a c => a * 10 + (c.toNat - 48)) 0
    if n ≤ 65535 then some (some n) else none
  else none

/-- Split a host-port run into host characters and port: a bracketed IPv6
host up to its closing bracket, or a domain host up to the first colon. -/
def parseHostPort (l : List Char) : Option (List Char × Option Nat) :=
  match l with
  | '[' :: rest =>
    let inside := rest.takeWhile fun c => !(c == ']')
    match rest.drop inside.length with
    | ']' :: afterBr =>
      if isIPv6 inside then
        match afterBr with
        | [] => some ('[' :: (inside ++ [']']), none)
        | ':' :: pl => (parsePort pl).map fun p => ('[' :: (inside ++ [']']), p)
        | _ => none
      else none
    | _ => none
  | _ =>
    let host := l.takeWhile fun c => !(c == ':')
    match l.drop host.length with
    | [] => some (host, none)
    | ':' :: pl => (parsePort pl).map fun p => (host, p)
    | _ => none

/-- The default port of a special scheme, which the parser normalizes away. -/
def defaultPort (scheme : String) : Option Nat :=
  if scheme = "http" ∨ scheme = "ws" then some 80
  else if scheme = "https" ∨ scheme = "wss" then some 443
  else if scheme = "ftp" then some 21
  else none

/-- Parse an absolute URL (`new URL(s)` with a single argument): a scheme,
then for special schemes an authority — optional userinfo up to the last
`@`, a domain or bracketed IPv6 host, an optional port — and a path;
otherwise an opaque path.  Returns `none` when `new URL` would throw.
(Dot-segment normalization, IDNA and percent-decoding of hosts are
omitted; no claim depends on them.) -/
def parseAbsoluteURL (s : String) : Option URLRec :=
  let l := (splitAtFirst '#' (urlPreprocess s)).1
  match l with
  | [] => none
  | c0 :: _ =>
    if ¬ c0.isAlpha then none
    else
      match takeSchemeAux l with
      | none => none
      | some (schemeChars, rest) =>
        let scheme := String.mk (schemeChars.map Char.toLower)
        if specialSchemes.contains scheme then
          let rest2 := rest.dropWhile fun c => c == '/' || c == '\\'
          let auth := rest2.takeWhile fun c => !(c == '/' || c == '\\' || c == '?')
          let afterAuth := rest2.drop auth.length
          -- userinfo (anything before the LAST at sign) is accepted and dropped
          let hp := if auth.contains '@'
                    then (auth.reverse.takeWhile fun c => !(c == '@')).reverse
                    else auth
          match parseHostPort hp with
          | none => none
          | some (hostChars, port) =>
            if hostChars.isEmpty ∧ scheme ≠ "file" then none
            else if hostChars.headD ' ' ≠ '[' ∧ hostChars.any forbiddenHostChar then none
            else
              let host := String.mk (hostChars.map Char.toLower)
              let pq := splitAtFirst '?' afterAuth
              let path :=
                if pq.1.isEmpty then "/"
                else String.mk (pq.1.map fun c => if c == '\\' then '/' else c)
              some { scheme, host
                   , port := if port = defaultPort scheme then none else port
                   , path, query := pq.2.map String.mk }
        else
          let pq := splitAtFirst '?' rest
          some { scheme, host := "", path := String.mk pq.1, query := pq.2.map String.mk }

/-- `new URL(pathArg, base)`: try `pathArg` as an absolute URL first, else
resolve it against the parsed base (protocol-relative, absolute-path,
query-only, or relative-path reference).  Returns `none` when the
constructor would throw. -/
def resolveURL (pathArg : String) (base : String) : Option URLRec :=
  match parseAbsoluteURL base with
  | none => none
  | some b =>
    match parseAbsoluteURL pathArg with
    | some u => some u
    | none =>
      let l := (splitAtFirst '#' (urlPreprocess pathArg)).1
      let l2 :=
        if specialSchemes.contains b.scheme then l.map fun c => if c == '\\' then '/' else c
        else l
      match l2 with
      | [] => some b
      | '/' :: '/' :: rest => parseAbsoluteURL (b.scheme ++ "://" ++ String.mk rest)
      | '/' :: rest =>
        let pq := splitAtFirst '?' ('/' :: rest)
        some { b with path := String.mk pq.1, query := pq.2.map String.mk }
      | '?' :: rest => some { b with query := some (String.mk rest) }
      | _ =>
        let pq := splitAtFirst '?' l2
        let dir := (b.path.toList.reverse.dropWhile fun c => !(c == '/')).reverse
        some { b with path := String.mk (dir ++ pq.1), query := pq.2.map String.mk }

/-- `url.searchParams.entries()`: the form-urlencoded parse of a raw query
string — split on `&`, drop empty pieces, split each piece at the first `=`,
percent-plus-decode keys and values. -/
def parseQS (s : String) : List (String × String) :=
  ((chSplitOn '&' s.toList).filter fun p => ¬ p.isEmpty).map fun piece =>
    let kv := splitAtFirst '=' piece
    (formUrlDecodeChars kv.1, formUrlDecodeChars (kv.2.getD []))

/-! ### Fetch `Headers.get` and the `content-type` parser -/

/-- Case-insensitive header name comparison. -/
def headerNameMatches (a b : String) : Bool :=
  a.toList.map Char.toLower == b.toList.map Char.toLower

/-- Fetch `Headers.get`: `none` when the header is absent, otherwise all
matching values joined with a comma and a space. -/
def headersGet (hs : List (String × String)) (name : String) : Option String :=
  match hs.filter fun p => headerNameMatches p.1 name with
  | [] => none
  | ms => some (String.intercalate ", " (ms.map Prod.snd))

/-- RFC 7230 token characters, as accepted by the `content-type` package. -/
def isTokenChar (c : Char) : Bool :=
  c.isAlpha || c.isDigit || "!#$%&*+.^_|~-".toList.contains c ||
    c = Char.ofNat 39 || c = Char.ofNat 96

/-- The `content-type` package's `parse(s).type`: the part before the first
semicolon, trimmed and lowercased, provided it is `token "/" token`;
`none` when `parse` would throw. -/
def parseContentTypeType (s : String) : Option String :=
  let t := ((splitAtFirst ';' s.toList).1.dropWhile Char.isWhitespace).reverse.dropWhile Char.isWhitespace |>.reverse
  match chSplitOn '/' t with
  | [a, b] =>
    if ¬ a.isEmpty ∧ ¬ b.isEmpty ∧ (a ++ b).all isTokenChar then
      some (String.mk ((a ++ '/' :: b).map Char.toLower))
    else none
  | _ => none

/-! ### The client and the request pipeline (src/index.js) -/

/-- The synchronous errors the client throws (`new TypeError(...)` /
`new URL(...)` failures). -/
inductive JsError where
  | typeError (msg : String)
deriving DecidableEq

/-- The state captured by `createClient`'s closure: the endpoint string and
the user-agent string. -/
structure Client where
  endpoint : String
  userAgent : String
deriving DecidableEq

/-- `createClient(endpoint, opt)`: validates the endpoint with `new URL`
(throwing on failure), then destructures `userAgent` from the hardcoded
literal `{userAgent: 'hafas-rest-api-client'}` — NOT from `opt`, which is
ignored. -/
def createClient (endpoint : String) (opt : List (String × JVal)) : Except JsError Client :=
  match parseAbsoluteURL endpoint with
  | none => .error (.typeError "Invalid URL")
  | some _ =>
    let userAgent := "hafas-rest-api-client"
    .ok { endpoint, userAgent }

/-- The `ky` options object a caller may pass as the request primitive's
third argument: the fields the defaults mention, plus any other fields. -/
structure KyOpts where
  mode : Option String := none
  redirect : Option String := none
  searchParams : Option String := none
  headers : Option (List (String × String)) := none
  extra : List (String × JVal) := []

/-- The assembled request configuration `cfg`. -/
structure ReqCfg where
  mode : String
  redirect : String
  searchParams : String
  headers : List (String × String)
  extra : List (String × JVal)

/-- The `cfg` object literal of `request`:
`{mode: 'cors', redirect: 'follow', searchParams: sp, ...opt, headers:
{'Accept': 'application/json', 'User-Agent': userAgent, ...(opt.headers || {})}}`.
Spreading `opt` replaces each default it names wholesale; the `headers` key
is written after the spread, so headers are always the per-key merge of the
two defaults with the caller's headers. -/
def assembleCfg (userAgent : String) (sp : String) (opt : KyOpts) : ReqCfg :=
  { mode := opt.mode.getD "cors"
  , redirect := opt.redirect.getD "follow"
  , searchParams := opt.searchParams.getD sp
  , headers := objSpread [("Accept", "application/json"), ("User-Agent", userAgent)] (opt.headers.getD [])
  , extra := opt.extra }

/-- The resolved URL's own query entries, `url.searchParams.entries()`. -/
def urlQueryEntries (u : URLRec) : List (String × String) :=
  parseQS (u.query.getD "")

/-- The object handed to `qs.stringify`:
`Object.fromEntries([...url.searchParams.entries(), ...Object.entries(query)])`. -/
def mergedQueryObj (u : URLRec) (query : List (String × JVal)) : List (String × JVal) :=
  objFromEntries (((urlQueryEntries u).map fun p => (p.1, JVal.str p.2)) ++ query)

/-- `url.href` of the resolved URL. -/
def urlHref (u : URLRec) : String :=
  u.scheme ++ ":" ++
    (if specialSchemes.contains u.scheme then
        "//" ++ u.host ++
          (match u.port with
           | some p => ":" ++ toString p
           | none => "")
      else "") ++
    u.path ++
    (match u.query with
     | some q => "?" ++ q
     | none => "")

/-- What `request` hands to `ky.get`: the resolved href and the assembled
configuration. -/
structure BuiltRequest where
  href : String
  cfg : ReqCfg

/-- The synchronous phase of `request`: resolve `path` against the endpoint
(`none` when `new URL(path, endpoint)` throws), merge and stringify the
query, assemble `cfg`. -/
def buildRequest (c : Client) (path : String) (query : List (String × JVal)) (opt : KyOpts) :
    Option BuiltRequest :=
  match resolveURL path c.endpoint with
  | none => none
  | some url =>
    some { href := urlHref url
         , cfg := assembleCfg c.userAgent (stringifyQuery (mergedQueryObj url query)) opt }

/-- An HTTP response as the code observes it: its headers, and the result of
`res.json()` (`none` when parsing the body as JSON throws). -/
structure HttpResponse where
  headers : List (String × String)
  jsonBody : Option JVal

/-- The failure `ky.get` rejects with: a message, and the failure response
when one exists (`none` for network-level failures). -/
structure FailureInfo where
  message : String
  response : Option HttpResponse := none

/-- Outcome of the network call. -/
inductive NetOutcome where
  | success (res : HttpResponse)
  | failure (err : FailureInfo)

/-- The error the caller receives: the (possibly extended) message and the
`body` field attached by the enrichment step, when any. -/
structure TransportError where
  message : String
  body : Option JVal := none

/-- `x || null` applied to a `Headers.get` result: an absent or empty
(falsy) value collapses to `null`. -/
def jsOrNull (v : Option String) : Option String :=
  match v with
  | some s => if s = "" then none else some s
  | none => none

/-- The literal appended before the error message suffix on src/index.js
line 71.  Its bytes are `c3a2 e282ac e2809c` — the UTF-8 en dash `e28093`
double-encoded through a Latin-1 round trip — so the string is
space, U+00E2, U+20AC, U+201C, space, not the intended en dash. -/
def dashLiteral : String :=
  String.mk [' ', Char.ofNat 0xE2, Char.ofNat 0x20AC, Char.ofNat 0x201C, ' ']

/-- The `catch` block of `request`: inspect the failure response's
`content-type`; when its MIME type is exactly `application/json`, attach the
parsed JSON body as `err.body` and, when `err.body.msg` is truthy, append
the dash literal and the message.  Any step throwing (no response, header
parse failure, body parse failure, property access on a `null` body) is
swallowed and the error is rethrown as-is — except that `err.body` keeps any
value assigned before the throw. -/
def enrichError (e : FailureInfo) : TransportError :=
  match e.response with
  | none => { message := e.message }
  | some res =>
    match headersGet res.headers "content-type" with
    | none => { message := e.message }
    | some cType =>
      match parseContentTypeType cType with
      | none => { message := e.message }
      | some t =>
        if t = "application/json" then
          match res.jsonBody with
          | none => { message := e.message }
          | some b =>
            match jsProp b "msg" with
            | none => { message := e.message, body := some b }
            | some m =>
              if jsTruthy m then
                { message := e.message ++ dashLiteral ++ jsToString m, body := some b }
              else { message := e.message, body := some b }
        else { message := e.message }

/-- The decorated response value: the parsed JSON body plus the four
non-enumerable metadata attachments made with `Object.defineProperty` under
the exported symbols. -/
structure Envelope where
  body : JVal
  response : HttpResponse
  headers : List (String × String)
  serverTiming : Option String
  cache : Option String

/-- Reading the exported `RESPONSE` symbol off an envelope. -/
def RESPONSE : Envelope → HttpResponse := Envelope.response

/-- Reading the exported `HEADERS` symbol off an envelope. -/
def HEADERS : Envelope → List (String × String) := Envelope.headers

/-- Reading the exported `SERVER_TIMING` symbol off an envelope. -/
def SERVER_TIMING : Envelope → Option String := Envelope.serverTiming

/-- Reading the exported `CACHE` symbol off an envelope. -/
def CACHE : Envelope → Option String := Envelope.cache

/-- Plain enumeration / `JSON.stringify` of the returned value: the symbol
attachments are non-enumerable, so only the body is visible. -/
def envSerialize (e : Envelope) : JVal := e.body

/-- Is the value a JavaScript object (arrays included)?
`Object.defineProperty` accepts exactly these and throws a `TypeError`
(`Object.defineProperty called on non-object`) on primitives. -/
def jsIsObject : JVal → Bool
  | .obj _ => true
  | .arr _ => true
  | _ => false

/-- The asynchronous tail of `request`: a failure is enriched and rethrown
(never swallowed); a success has its body parsed as JSON (mandatory — a
non-JSON 2xx body is an error) and the four metadata attachments added with
`Object.defineProperty`, which throws when the parsed body is a primitive
(`null`, number, string or boolean) rather than an object or array. -/
def handleOutcome : NetOutcome → Except TransportError Envelope
  | .failure e => .error (enrichError e)
  | .success res =>
    match res.jsonBody with
    | none => .error { message := "invalid JSON body" }
    | some body =>
      if jsIsObject body then
        .ok { body
            , response := res
            , headers := res.headers
            , serverTiming := jsOrNull (headersGet res.headers "Server-Timing")
            , cache := jsOrNull (headersGet res.headers "X-Cache") }
      else .error { message := "Object.defineProperty called on non-object" }

/-- The full request primitive, with the network abstracted as an oracle
from the built request to its outcome. -/
def request (c : Client) (path : String) (query : List (String × JVal)) (opt : KyOpts)
    (net : BuiltRequest → NetOutcome) : Except TransportError Envelope :=
  match buildRequest c path query opt with
  | none => .error { message := "Invalid URL" }
  | some br => handleOutcome (net br)

/-! ### The public per-endpoint operations

Each operation shapes its inputs into a call of the request primitive.  A
`ReqSpec` records that call: the path, the query mapping (second argument)
and the transport options (third argument).  Operations with an identifier
check validate synchronously and return `Except`. -/

/-- The three arguments an operation passes to `request`. -/
structure ReqSpec where
  path : String
  query : List (String × JVal)
  opt : KyOpts

/-- `locations(query, opt)` → `request('/locations', {query, ...opt})`. -/
def locations (query : JVal) (opt : List (String × JVal)) : ReqSpec :=
  { path := "/locations", query := objFromEntries (("query", query) :: opt), opt := {} }

/-- `nearby(loc, opt)` → `request('/stops/nearby', {...loc, ...opt})`. -/
def nearby (loc : List (String × JVal)) (opt : List (String × JVal)) : ReqSpec :=
  { path := "/stops/nearby", query := objFromEntries (loc ++ opt), opt := {} }

/-- `stations(query, opt)` → `request('/stations', {...opt, query})`. -/
def stations (query : JVal) (opt : List (String × JVal)) : ReqSpec :=
  { path := "/stations", query := objFromEntries (opt ++ [("query", query)]), opt := {} }

/-- `reachableFrom(loc, opt)` → `request('/stops/reachable-from', {...loc, ...opt})`. -/
def reachableFrom (loc : List (String × JVal)) (opt : List (String × JVal)) : ReqSpec :=
  { path := "/stops/reachable-from", query := objFromEntries (loc ++ opt), opt := {} }

/-- `stop(id, opt)`: throws `TypeError('invalid id')` on a falsy id, else
`request('/stops/' + encodeURIComponent(id), opt)`. -/
def stop (id : JVal) (opt : List (String × JVal)) : Except JsError ReqSpec :=
  if ¬ jsTruthy id then .error (.typeError "invalid id")
  else .ok { path := "/stops/" ++ encodeURIComponent (jsToString id), query := opt, opt := {} }

/-- `_stationBoard(type)`: the shared station-board builder.  Throws
`TypeError('invalid stop')` on a falsy argument; replaces an object bearing
a truthy `id` by that id; throws on remaining non-strings; and builds the
path `/stops/${encodeURIComponent(stop)}/departures` — the `type` parameter
is never used. -/
def _stationBoard (_type : String) (stop : JVal) (opt : List (String × JVal)) :
    Except JsError ReqSpec :=
  if ¬ jsTruthy stop then .error (.typeError "invalid stop")
  else
    let stopId := (jsProp stop "id").getD .undefined
    if jsTruthy stopId then
      .ok { path := "/stops/" ++ encodeURIComponent (jsToString stopId) ++ "/departures"
          , query := opt, opt := {} }
    else if jsTypeof stop ≠ "string" then .error (.typeError "invalid stop")
    else
      .ok { path := "/stops/" ++ encodeURIComponent (jsToString stop) ++ "/departures"
          , query := opt, opt := {} }

/-- `departures = _stationBoard('departures')`. -/
def departures : JVal → List (String × JVal) → Except JsError ReqSpec :=
  _stationBoard "departures"

/-- `arrivals = _stationBoard('arrivals')`. -/
def arrivals : JVal → List (String × JVal) → Except JsError ReqSpec :=
  _stationBoard "arrivals"

/-- `journeys(from, to, opt)` → `request('/journeys', {from, to, ...opt})`. -/
def journeys (fromLoc toLoc : JVal) (opt : List (String × JVal)) : ReqSpec :=
  { path := "/journeys"
  , query := objFromEntries ([("from", fromLoc), ("to", toLoc)] ++ opt), opt := {} }

/-- `refreshJourney(ref, opt)`: throws `TypeError('invalid ref')` on a falsy
ref, else `request('/journeys/' + encodeURIComponent(ref), opt)`. -/
def refreshJourney (ref : JVal) (opt : List (String × JVal)) : Except JsError ReqSpec :=
  if ¬ jsTruthy ref then .error (.typeError "invalid ref")
  else .ok { path := "/journeys/" ++ encodeURIComponent (jsToString ref), query := opt, opt := {} }

/-- `trip(id, lineName, opt)`: throws `TypeError('invalid id')` on a falsy
id, else `request('/trips/' + encodeURIComponent(id), {lineName, ...opt})`. -/
def trip (id : JVal) (lineName : JVal) (opt : List (String × JVal)) : Except JsError ReqSpec :=
  if ¬ jsTruthy id then .error (.typeError "invalid id")
  else
    .ok { path := "/trips/" ++ encodeURIComponent (jsToString id)
        , query := objFromEntries (("lineName", lineName) :: opt), opt := {} }

/-- `radar(bbox, opt)` → `request('/radar', {...bbox, ...opt})`. -/
def radar (bbox : List (String × JVal)) (opt : List (String × JVal)) : ReqSpec :=
  { path := "/radar", query := objFromEntries (bbox ++ opt), opt := {} }

/-! ### Lemmas about ordered-object construction -/

/-- Lookup after a single assignment: the assigned key reads back the new
value, every other key is unchanged. -/
theorem objLookup_objInsert {α : Type} (o : List (String × α)) (k k' : String) (v : α) :
    objLookup (objInsert o k v) k' = if k' = k then some v else objLookup o k' := by
  induction o with
  | nil =>
    by_cases h : k' = k
    · simp [objInsert, objLookup, h]
    · simp [objInsert, objLookup, h, Ne.symm h]
  | cons p rest ih =>
    by_cases hp : p.1 = k
    · by_cases h : k' = k
      · simp [objInsert, objLookup, hp, h]
      · have h2 : ¬ k = k' := fun hh => h hh.symm
        simp [objInsert, objLookup, hp, h, h2]
    · by_cases hq : p.1 = k'
      · have h : ¬ k' = k := fun hh => hp (hq.trans hh)
        simp [objInsert, objLookup, hp, hq, h]
      · simp [objInsert, objLookup, hp, hq, ih]

/-- A single assignment adds exactly the assigned key to the key set. -/
theorem mem_objKeys_objInsert {α : Type} (o : List (String × α)) (k : String) (v : α)
    (k' : String) : k' ∈ objKeys (objInsert o k v) ↔ k' = k ∨ k' ∈ objKeys o := by
  induction o with
  | nil => simp [objInsert, objKeys]
  | cons p rest ih =>
    by_cases hp : p.1 = k
    · simp [objInsert, objKeys, hp]
    · simp [objInsert, objKeys, hp] at ih ⊢
      tauto

/-- Lookup after spreading an entry list over an accumulator: the last
binding in the entry list wins, and the accumulator only answers for keys
the entry list does not bind. -/
theorem objLookup_objSpread {α : Type} (l : List (String × α)) (acc : List (String × α))
    (k : String) : objLookup (objSpread acc l) k = (lookupLast l k).or (objLookup acc k) := by
  induction l generalizing acc with
  | nil => simp [objSpread, lookupLast]
  | cons p t ih =>
    obtain ⟨k0, v0⟩ := p
    rw [show objSpread acc ((k0, v0) :: t) = objSpread (objInsert acc k0 v0) t from rfl]
    rw [ih, objLookup_objInsert]
    rw [show lookupLast ((k0, v0) :: t) k
          = (lookupLast t k).or (if k0 = k then some v0 else none) from rfl]
    rw [Option.or_assoc]
    by_cases hk : k = k0
    · simp [hk]
    · have hk2 : ¬ k0 = k := fun hh => hk hh.symm
      simp [hk, hk2]

/-- The key set after a spread is the union of the key sets. -/
theorem mem_objKeys_objSpread {α : Type} (l : List (String × α)) (acc : List (String × α))
    (k : String) : k ∈ objKeys (objSpread acc l) ↔ k ∈ objKeys acc ∨ k ∈ objKeys l := by
  induction l generalizing acc with
  | nil => simp [objSpread, objKeys]
  | cons p t ih =>
    obtain ⟨k0, v0⟩ := p
    rw [show objSpread acc ((k0, v0) :: t) = objSpread (objInsert acc k0 v0) t from rfl]
    rw [ih]
    rw [show (k ∈ objKeys ((k0, v0) :: t)) = (k ∈ k0 :: objKeys t) from rfl]
    simp [mem_objKeys_objInsert]
    tauto

/-- Lookup in `Object.fromEntries(l)` is the last binding in `l`. -/
theorem objLookup_objFromEntries {α : Type} (l : List (String × α)) (k : String) :
    objLookup (objFromEntries l) k = lookupLast l k := by
  rw [objFromEntries, objLookup_objSpread]
  cases lookupLast l k <;> simp [objLookup, Option.or]

/-- `Object.fromEntries(l)` has exactly the keys of `l`. -/
theorem mem_objKeys_objFromEntries {α : Type} (l : List (String × α)) (k : String) :
    k ∈ objKeys (objFromEntries l) ↔ k ∈ objKeys l := by
  rw [objFromEntries, mem_objKeys_objSpread]
  simp [objKeys]

/-- Mapping values through `f` commutes with last-binding lookup. -/
theorem lookupLast_map_val {α β : Type} (f : α → β) (l : List (String × α)) (k : String) :
    lookupLast (l.map fun p => (p.1, f p.2)) k = (lookupLast l k).map f := by
  induction l with
  | nil => simp [lookupLast]
  | cons p t ih =>
    simp only [List.map_cons, lookupLast, ih]
    by_cases h : p.1 = k
    · simp [h]
      cases lookupLast t k <;> simp [Option.or]
    · simp [h]

/-- `qs` flattening of a nested object produces dotted key paths, one
flattening per field. -/
theorem qsFlattenFields_eq_flatMap (key : String) (fs : List (String × JVal)) :
    qsFlattenFields key fs = fs.flatMap fun kv => qsFlatten (key ++ "." ++ kv.1) kv.2 := by
  induction fs with
  | nil => simp [qsFlattenFields]
  | cons p t ih =>
    obtain ⟨k, v⟩ := p
    simp [qsFlattenFields, ih]

/-! ### Lemmas about `encodeURIComponent` output -/

/-- Uppercase hex digits are among the sixteen hex characters. -/
theorem hexUpper_mem (n : Nat) (h : n < 16) : hexUpper n ∈ "0123456789ABCDEF".toList := by
  interval_cases n <;> decide

/-- UTF-8 encoding produces bytes. -/
theorem utf8Encode_lt (c : Char) : ∀ b ∈ utf8Encode c, b < 256 := by
  have hcv : c.toNat = c.val.toNat := rfl
  have hv : c.toNat < 1114112 := by
    have := c.valid
    rcases this with h | h <;> omega
  intro b hb
  unfold utf8Encode at hb
  simp only at hb
  split at hb
  · simp at hb; omega
  · split at hb
    · simp at hb; rcases hb with h | h <;> omega
    · split at hb
      · simp at hb; rcases hb with h | h | h <;> omega
      · simp at hb; rcases hb with h | h | h | h <;> omega

/-- Every character of `encodeURIComponent` output is either a kept
unreserved character, a percent sign, or an uppercase hex digit. -/
theorem encodeURIComponent_mem (s : String) (c : Char)
    (hc : c ∈ (encodeURIComponent s).toList) :
    encodeURIComponentKeeps c = true ∨ c = '%' ∨ c ∈ "0123456789ABCDEF".toList := by
  have hrw : (encodeURIComponent s).toList = s.toList.flatMap fun a =>
      if encodeURIComponentKeeps a then [a] else (utf8Encode a).flatMap pctEncodeByte := rfl
  rw [hrw, List.mem_flatMap] at hc
  obtain ⟨a, _, ha⟩ := hc
  by_cases hk : encodeURIComponentKeeps a
  · simp [hk] at ha
    subst ha
    exact .inl hk
  · simp [hk, List.mem_flatMap] at ha
    obtain ⟨b, hb, hcb⟩ := ha
    simp [pctEncodeByte] at hcb
    rcases hcb with h | h | h
    · exact .inr (.inl h)
    · subst h
      exact .inr (.inr (hexUpper_mem _ (by have := utf8Encode_lt a b hb; omega)))
    · subst h
      exact .inr (.inr (hexUpper_mem _ (by have := utf8Encode_lt a b hb; omega)))

/-- `encodeURIComponent` output never contains a slash: an encoded
identifier cannot escape its path segment. -/
theorem encodeURIComponent_no_slash (s : String) : '/' ∉ (encodeURIComponent s).toList := by
  intro h
  rcases encodeURIComponent_mem s _ h with h1 | h1 | h1 <;> revert h1 <;> decide

/-- A departures path and an arrivals path always differ, whatever the two
encoded identifiers are (character-list form). -/
theorem departures_path_ne_arrivals_chars (e j : List Char) :
    "/stops/".toList ++ (e ++ "/departures".toList) ≠
      "/stops/".toList ++ (j ++ "/arrivals".toList) := by
  intro h
  have h1 : e ++ "/departures".toList = j ++ "/arrivals".toList := List.append_cancel_left h
  have h2 := congrArg List.reverse h1
  rw [List.reverse_append, List.reverse_append] at h2
  have hd : ("/departures".toList).reverse
      = ['s', 'e', 'r', 'u', 't', 'r', 'a', 'p', 'e', 'd', '/'] := by decide
  have ha : ("/arrivals".toList).reverse
      = ['s', 'l', 'a', 'v', 'i', 'r', 'r', 'a', '/'] := by decide
  rw [hd, ha] at h2
  simp at h2

/-- String concatenation concatenates the underlying character lists. -/
theorem strData_append (a b : String) : (a ++ b).data = a.data ++ b.data := rfl

/-- A departures path and an arrivals path always differ (string form). -/
theorem departures_path_ne_arrivals (e j : String) :
    "/stops/" ++ e ++ "/departures" ≠ "/stops/" ++ j ++ "/arrivals" := by
  intro h
  have h2 := congrArg String.data h
  rw [strData_append, strData_append, strData_append, strData_append] at h2
  rw [List.append_assoc, List.append_assoc] at h2
  exact departures_path_ne_arrivals_chars e.data j.data h2

/-- Keys are untouched when every value of an entry list is mapped. -/
theorem objKeys_map_val {α β : Type} (f : α → β) (l : List (String × α)) :
    objKeys (l.map fun p => (p.1, f p.2)) = objKeys l := by
  induction l with
  | nil => rfl
  | cons p t ih => simp [objKeys]

/-- Last-binding lookup over a concatenation: the right-hand list wins. -/
theorem lookupLast_append {α : Type} (l1 l2 : List (String × α)) (k : String) :
    lookupLast (l1 ++ l2) k = (lookupLast l2 k).or (lookupLast l1 k) := by
  induction l1 with
  | nil => simp [lookupLast]
  | cons p t ih => simp [lookupLast, ih, Option.or_assoc]

/-! ### The claims -/

/-- The client used in concrete scenarios. -/
def exClient : Client :=
  { endpoint := "https://example.org", userAgent := "hafas-rest-api-client" }

/-- The resolution of `/j?a=1` against the example endpoint. -/
def c1url : URLRec :=
  { scheme := "https", host := "example.org", path := "/j", query := some "a=1" }

/-- **C1 (counterexample).** The claim states that entries sharing a key are
NOT deduplicated before encoding, so that the encoder receives the URL's
entries followed by the explicit mapping's entries.  At path `/j?a=1` with
explicit mapping `{a: "2"}`, the object handed to the encoder is
`Object.fromEntries` of the concatenation, which collapses the two `a`
entries to the single entry `a=2`; the wire string is `a=2`, not the
concatenation's `a=1&a=2`. -/
theorem claim_c1_counterexample :
    resolveURL "/j?a=1" exClient.endpoint = some c1url ∧
    urlQueryEntries c1url = [("a", "1")] ∧
    mergedQueryObj c1url [("a", JVal.str "2")] ≠
      ((urlQueryEntries c1url).map fun p => (p.1, JVal.str p.2)) ++ [("a", JVal.str "2")] ∧
    stringifyQuery (mergedQueryObj c1url [("a", JVal.str "2")]) = "a=2" ∧
    stringifyQuery (((urlQueryEntries c1url).map fun p => (p.1, JVal.str p.2))
        ++ [("a", JVal.str "2")]) = "a=1&a=2" := by
  refine ⟨by decide, by decide, ?_, by decide, by decide⟩
  intro h
  exact absurd (congrArg List.length h) (by decide)

/-- **C1 (amended).** For every path with an embedded query string and every
explicit query mapping, the request primitive feeds the encoder
`Object.fromEntries` of the resolved URL's existing query entries followed
by the explicit mapping's entries; entries sharing a key ARE deduplicated
before encoding, the later (explicit mapping's last) entry winning, so the
merged query string contains every KEY from both sources exactly once, with
the explicit mapping's value taking precedence on shared keys, and nested
objects flattened to dotted-path keys (e.g. `a.b=1`). -/
theorem claim_c1 (c : Client) (path : String) (query : List (String × JVal))
    (opt : KyOpts) (u : URLRec)
    (hu : resolveURL path c.endpoint = some u) (hsp : opt.searchParams = none) :
    buildRequest c path query opt =
      some { href := urlHref u
           , cfg := assembleCfg c.userAgent (stringifyQuery (mergedQueryObj u query)) opt } ∧
    (assembleCfg c.userAgent (stringifyQuery (mergedQueryObj u query)) opt).searchParams
      = stringifyQuery (mergedQueryObj u query) ∧
    (∀ k, k ∈ objKeys (mergedQueryObj u query) ↔
        k ∈ objKeys (urlQueryEntries u) ∨ k ∈ objKeys query) ∧
    (∀ k v, lookupLast query k = some v → objLookup (mergedQueryObj u query) k = some v) ∧
    (∀ k, lookupLast query k = none →
        objLookup (mergedQueryObj u query) k
          = (lookupLast (urlQueryEntries u) k).map JVal.str) ∧
    (∀ key fields, qsFlatten key (JVal.obj fields)
        = fields.flatMap fun kv => qsFlatten (key ++ "." ++ kv.1) kv.2) := by
  refine ⟨by simp [buildRequest, hu], by simp [assembleCfg, hsp], ?_, ?_, ?_, ?_⟩
  · intro k
    rw [mergedQueryObj, mem_objKeys_objFromEntries]
    rw [show objKeys (((urlQueryEntries u).map fun p => (p.1, JVal.str p.2)) ++ query)
          = objKeys ((urlQueryEntries u).map fun p => (p.1, JVal.str p.2)) ++ objKeys query
        from by simp [objKeys]]
    rw [objKeys_map_val]
    exact List.mem_append
  · intro k v hv
    rw [mergedQueryObj, objLookup_objFromEntries, lookupLast_append, hv]
    rfl
  · intro k hv
    rw [mergedQueryObj, objLookup_objFromEntries, lookupLast_append, hv,
        lookupLast_map_val]
    cases lookupLast (urlQueryEntries u) k <;> rfl
  · intro key fields
    rw [show qsFlatten key (JVal.obj fields) = qsFlattenFields key fields from rfl]
    exact qsFlattenFields_eq_flatMap key fields

/-- **C1 (witness).** The amended claim at the counterexample input: the
explicit mapping's value for `a` wins in the merged object. -/
theorem claim_c1_witness :
    objLookup (mergedQueryObj c1url [("a", JVal.str "2")]) "a" = some (JVal.str "2") := by
  have h := claim_c1 exClient "/j?a=1" [("a", JVal.str "2")] {} c1url (by decide) rfl
  exact h.2.2.2.1 "a" (JVal.str "2") rfl

/-- **C2 (code bug).** The spec claims the enriched error message ends with
an en dash suffix ` – <msg>`.  The code at src/index.js line 71 appends a
mojibake literal instead: the UTF-8 en dash double-encoded through a
Latin-1 round trip (bytes `c3a2 e282ac e2809c`).  At a failure response
with content type `application/json` and body `{"msg": "not found"}`, the
raised error's message is `HTTP 500` followed by the mojibake dash and
`not found`, which differs from the en-dash message the claim states. -/
theorem claim_c2 :
    enrichError { message := "HTTP 500"
                , response := some { headers := [("content-type", "application/json")]
                                   , jsonBody := some (JVal.obj [("msg", JVal.str "not found")]) } }
      = { message := "HTTP 500" ++ dashLiteral ++ "not found"
        , body := some (JVal.obj [("msg", JVal.str "not found")]) } ∧
    "HTTP 500" ++ dashLiteral ++ "not found" ≠ "HTTP 500 – not found" ∧
    enrichError { message := "HTTP 500"
                , response := some { headers := [("content-type", "text/html")]
                                   , jsonBody := some (JVal.obj [("msg", JVal.str "not found")]) } }
      = { message := "HTTP 500", body := none } ∧
    (∀ e, handleOutcome (.failure e) = .error (enrichError e)) :=
  ⟨rfl, by decide, rfl, fun _ => rfl⟩

/-- A success response whose `X-Cache` header is present but empty. -/
def c3res : HttpResponse :=
  { headers := [("X-Cache", "")], jsonBody := some (JVal.obj []) }

/-- The envelope the pipeline builds for `c3res`. -/
def c3env : Envelope :=
  { body := JVal.obj [], response := c3res, headers := [("X-Cache", "")]
  , serverTiming := none, cache := none }

/-- **C3 (counterexample).** The claim states the `CACHE` marker yields the
`X-Cache` header value.  On a success response whose `X-Cache` header is
present with the empty value, `Headers.get` yields `""` but the attached
marker is `null` (the code stores `res.headers.get('X-Cache') || null`), so
the marker does not equal the header value. -/
theorem claim_c3_counterexample :
    headersGet c3res.headers "X-Cache" = some "" ∧
    handleOutcome (.success c3res) = .ok c3env ∧
    CACHE c3env ≠ some "" := by
  refine ⟨by decide, rfl, by decide⟩

/-- **C3 (amended).** For every successful response whose JSON body is an
object or array (the only values `Object.defineProperty` accepts — for a
primitive 2xx JSON body the attachment call throws and the request fails,
as the last conjunct states), the returned value is the parsed body with
the four metadata attachments: `RESPONSE` yields the raw response handle,
`HEADERS` the raw headers handle, and `SERVER_TIMING` / `CACHE` yield the
corresponding header value when it is present and non-empty, and `null`
when the header is absent or empty; enumeration / JSON serialization of the
returned value reproduces only the body. -/
theorem claim_c3 (res : HttpResponse) (b : JVal) (hb : res.jsonBody = some b)
    (hobj : jsIsObject b = true) :
    handleOutcome (.success res) =
      .ok { body := b, response := res, headers := res.headers
          , serverTiming := jsOrNull (headersGet res.headers "Server-Timing")
          , cache := jsOrNull (headersGet res.headers "X-Cache") } ∧
    (∀ env, handleOutcome (.success res) = .ok env →
        envSerialize env = b ∧ RESPONSE env = res ∧ HEADERS env = res.headers ∧
        (∀ v, headersGet res.headers "Server-Timing" = some v → v ≠ "" →
            SERVER_TIMING env = some v) ∧
        (headersGet res.headers "Server-Timing" = none → SERVER_TIMING env = none) ∧
        (headersGet res.headers "Server-Timing" = some "" → SERVER_TIMING env = none) ∧
        (∀ v, headersGet res.headers "X-Cache" = some v → v ≠ "" → CACHE env = some v) ∧
        (headersGet res.headers "X-Cache" = none → CACHE env = none) ∧
        (headersGet res.headers "X-Cache" = some "" → CACHE env = none)) ∧
    (∀ res2 b2, res2.jsonBody = some b2 → jsIsObject b2 = false →
        handleOutcome (.success res2) =
          .error { message := "Object.defineProperty called on non-object" }) := by
  have h1 : handleOutcome (.success res) =
      .ok { body := b, response := res, headers := res.headers
          , serverTiming := jsOrNull (headersGet res.headers "Server-Timing")
          , cache := jsOrNull (headersGet res.headers "X-Cache") } := by
    simp [handleOutcome, hb, hobj]
  have hprim : ∀ res2 b2, res2.jsonBody = some b2 → jsIsObject b2 = false →
      handleOutcome (.success res2) =
        .error { message := "Object.defineProperty called on non-object" } := by
    intro res2 b2 hb2 hobj2
    simp [handleOutcome, hb2, hobj2]
  refine ⟨h1, ?_, hprim⟩
  intro env henv
  rw [h1] at henv
  simp only [Except.ok.injEq] at henv
  subst henv
  refine ⟨rfl, rfl, rfl, ?_, ?_, ?_, ?_, ?_, ?_⟩
  · intro v hv hne
    simp [SERVER_TIMING, hv, jsOrNull, hne]
  · intro hv
    simp [SERVER_TIMING, hv, jsOrNull]
  · intro hv
    simp [SERVER_TIMING, hv, jsOrNull]
  · intro v hv hne
    simp [CACHE, hv, jsOrNull, hne]
  · intro hv
    simp [CACHE, hv, jsOrNull]
  · intro hv
    simp [CACHE, hv, jsOrNull]

/-- The response of the spec's concrete success scenario: 2xx JSON body with
an `X-Cache: HIT` header. -/
def c3wres : HttpResponse :=
  { headers := [("X-Cache", "HIT")]
  , jsonBody := some (JVal.obj [("id", JVal.str "900000003201"), ("name", JVal.str "X")]) }

/-- **C3 (witness).** The amended claim at the spec's concrete scenario:
the cache marker resolves to `HIT` and serialization reproduces the body. -/
theorem claim_c3_witness :
    handleOutcome (.success c3wres) =
      .ok { body := JVal.obj [("id", JVal.str "900000003201"), ("name", JVal.str "X")]
          , response := c3wres, headers := [("X-Cache", "HIT")]
          , serverTiming := none, cache := some "HIT" } := by
  have h := claim_c3 c3wres
    (JVal.obj [("id", JVal.str "900000003201"), ("name", JVal.str "X")]) rfl rfl
  exact h.1

/-- **C4.** `arrivals` and `departures` are the same function (the shared
builder never reads its `type` parameter); every accepted station-board call
resolves to a `/stops/{id}/departures` path; such a path never equals an
arrivals path, whatever the identifiers; and every other operation's path is
one of the fixed templates `/locations`, `/stops/nearby`, `/stations`,
`/stops/reachable-from`, `/journeys`, `/radar`, `/stops/{id}`,
`/journeys/{ref}`, `/trips/{id}` — no operation ever constructs an
`/arrivals` path. -/
theorem claim_c4 :
    arrivals = departures ∧
    (∀ s o spec, arrivals s o = .ok spec →
        ∃ i, spec.path = "/stops/" ++ encodeURIComponent i ++ "/departures") ∧
    (∀ s o spec i, departures s o = .ok spec →
        spec.path ≠ "/stops/" ++ encodeURIComponent i ++ "/arrivals") ∧
    (∀ q o, (locations q o).path = "/locations") ∧
    (∀ l o, (nearby l o).path = "/stops/nearby") ∧
    (∀ q o, (stations q o).path = "/stations") ∧
    (∀ l o, (reachableFrom l o).path = "/stops/reachable-from") ∧
    (∀ i o spec, stop i o = .ok spec → ∃ s2, spec.path = "/stops/" ++ encodeURIComponent s2) ∧
    (∀ f t o, (journeys f t o).path = "/journeys") ∧
    (∀ r o spec, refreshJourney r o = .ok spec →
        ∃ s2, spec.path = "/journeys/" ++ encodeURIComponent s2) ∧
    (∀ i ln o spec, trip i ln o = .ok spec →
        ∃ s2, spec.path = "/trips/" ++ encodeURIComponent s2) ∧
    (∀ b o, (radar b o).path = "/radar") := by
  have hboard : ∀ s o spec, _stationBoard "arrivals" s o = .ok spec →
      ∃ i, spec.path = "/stops/" ++ encodeURIComponent i ++ "/departures" := by
    intro s o spec h
    unfold _stationBoard at h
    by_cases h1 : jsTruthy s
    · simp [h1] at h
      by_cases h2 : jsTruthy ((jsProp s "id").getD .undefined)
      · simp [h2] at h
        exact ⟨jsToString ((jsProp s "id").getD .undefined), by rw [← h]⟩
      · simp [h2] at h
        by_cases h3 : jsTypeof s = "string"
        · simp [h3] at h
          exact ⟨jsToString s, by rw [← h]⟩
        · simp [h3] at h
    · simp [h1] at h
  refine ⟨rfl, hboard, ?_, fun _ _ => rfl, fun _ _ => rfl, fun _ _ => rfl, fun _ _ => rfl,
    ?_, fun _ _ _ => rfl, ?_, ?_, fun _ _ => rfl⟩
  · intro s o spec i h
    obtain ⟨i2, hi2⟩ := hboard s o spec h
    rw [hi2]
    exact departures_path_ne_arrivals (encodeURIComponent i2) (encodeURIComponent i)
  · intro i o spec h
    unfold stop at h
    by_cases h1 : jsTruthy i
    · simp [h1] at h
      exact ⟨jsToString i, by rw [← h]⟩
    · simp [h1] at h
  · intro r o spec h
    unfold refreshJourney at h
    by_cases h1 : jsTruthy r
    · simp [h1] at h
      exact ⟨jsToString r, by rw [← h]⟩
    · simp [h1] at h
  · intro i ln o spec h
    unfold trip at h
    by_cases h1 : jsTruthy i
    · simp [h1] at h
      exact ⟨jsToString i, by rw [← h]⟩
    · simp [h1] at h

/-- **C4 (witness).** The equality of the two operations and the path facts
at the concrete stop id `900000003201`. -/
theorem claim_c4_witness :
    ("/stops/900000003201/departures" : String) ≠
      "/stops/" ++ encodeURIComponent "900000003201" ++ "/arrivals" := by
  exact claim_c4.2.2.1 (JVal.str "900000003201") []
    { path := "/stops/900000003201/departures", query := [], opt := {} } "900000003201" rfl

/-- **C5.** Whatever `userAgent` value the caller passes to `createClient`,
the constructed client's user-agent is the fixed default
`hafas-rest-api-client` (the constructor destructures it from a hardcoded
literal, ignoring the options object), and every request built through the
client with the operations' empty transport options carries the
`User-Agent` header `hafas-rest-api-client`. -/
theorem claim_c5 (endpoint : String) (ua : JVal) (c : Client)
    (hc : createClient endpoint [("userAgent", ua)] = .ok c) :
    c.userAgent = "hafas-rest-api-client" ∧
    ∀ path query br, buildRequest c path query {} = some br →
      objLookup br.cfg.headers "User-Agent" = some "hafas-rest-api-client" := by
  have hua : c.userAgent = "hafas-rest-api-client" := by
    unfold createClient at hc
    cases heq : parseAbsoluteURL endpoint with
    | none => rw [heq] at hc; exact absurd hc (by simp)
    | some u =>
      rw [heq] at hc
      simp only [Except.ok.injEq] at hc
      rw [← hc]
  refine ⟨hua, ?_⟩
  intro path query br hbr
  unfold buildRequest at hbr
  cases hres : resolveURL path c.endpoint with
  | none => rw [hres] at hbr; exact absurd hbr (by simp)
  | some url =>
    rw [hres] at hbr
    simp only [Option.some.injEq] at hbr
    rw [← hbr]
    show objLookup (objSpread [("Accept", "application/json"), ("User-Agent", c.userAgent)] []) "User-Agent"
      = some "hafas-rest-api-client"
    rw [hua]
    rfl

/-- **C5 (witness).** A client built with a custom `userAgent` option still
has the default user-agent. -/
theorem claim_c5_witness : exClient.userAgent = "hafas-rest-api-client" := by
  exact (claim_c5 "https://example.org" (JVal.str "my awesome project") exClient rfl).1

/-- **C6.** The assembled configuration starts from the defaults — `cors`
mode, `follow` redirects, and the two headers `Accept: application/json`
and `User-Agent: <client value>` — and applies the caller's options as an
override layer: each caller-supplied top-level option (mode, redirect,
searchParams, and the extra fields) replaces its default wholesale, while
caller-supplied headers are merged per key over the two defaults, keeping
non-conflicting defaults. -/
theorem claim_c6 (userAgent sp : String) (opt : KyOpts) :
    (opt.mode = none → (assembleCfg userAgent sp opt).mode = "cors") ∧
    (∀ m, opt.mode = some m → (assembleCfg userAgent sp opt).mode = m) ∧
    (opt.redirect = none → (assembleCfg userAgent sp opt).redirect = "follow") ∧
    (∀ r, opt.redirect = some r → (assembleCfg userAgent sp opt).redirect = r) ∧
    (opt.searchParams = none → (assembleCfg userAgent sp opt).searchParams = sp) ∧
    (∀ q, opt.searchParams = some q → (assembleCfg userAgent sp opt).searchParams = q) ∧
    (assembleCfg userAgent sp opt).extra = opt.extra ∧
    (∀ k, objLookup (assembleCfg userAgent sp opt).headers k =
        (lookupLast (opt.headers.getD []) k).or
          (objLookup [("Accept", "application/json"), ("User-Agent", userAgent)] k)) := by
  refine ⟨?_, ?_, ?_, ?_, ?_, ?_, rfl, ?_⟩
  · intro h; simp [assembleCfg, h]
  · intro m h; simp [assembleCfg, h]
  · intro h; simp [assembleCfg, h]
  · intro r h; simp [assembleCfg, h]
  · intro h; simp [assembleCfg, h]
  · intro q h; simp [assembleCfg, h]
  · intro k
    exact objLookup_objSpread (opt.headers.getD []) _ k

/-- **C6 (witness).** A caller overriding the redirect policy and the
`User-Agent` header: the redirect default is replaced wholesale, the
caller's header wins per key, and the non-conflicting `Accept` default is
kept. -/
theorem claim_c6_witness :
    (assembleCfg "hafas-rest-api-client" "a=1"
        { redirect := some "manual", headers := some [("User-Agent", "custom")] }).redirect
      = "manual" ∧
    objLookup (assembleCfg "hafas-rest-api-client" "a=1"
        { redirect := some "manual", headers := some [("User-Agent", "custom")] }).headers
        "User-Agent" = some "custom" ∧
    objLookup (assembleCfg "hafas-rest-api-client" "a=1"
        { redirect := some "manual", headers := some [("User-Agent", "custom")] }).headers
        "Accept" = some "application/json" := by
  have h := claim_c6 "hafas-rest-api-client" "a=1"
    { redirect := some "manual", headers := some [("User-Agent", "custom")] }
  refine ⟨h.2.2.2.1 "manual" rfl, ?_, ?_⟩
  · rw [h.2.2.2.2.2.2.2 "User-Agent"]
    rfl
  · rw [h.2.2.2.2.2.2.2 "Accept"]
    rfl

/-- **C7.** `stop('')`, `refreshJourney('')`, `trip('')`,
`departures(undefined)` and `arrivals(undefined)` all fail with the
invalid-argument `TypeError` before any request is built; more generally,
every falsy id/ref makes `stop`/`refreshJourney`/`trip` fail, and every
stop argument that is falsy, or neither a string nor a value with a truthy
`id` property, makes the station-board operations fail — in all cases no
`ReqSpec` is produced, so no network call is issued. -/
theorem claim_c7 :
    (∀ o, stop (JVal.str "") o = .error (.typeError "invalid id")) ∧
    (∀ o, refreshJourney (JVal.str "") o = .error (.typeError "invalid ref")) ∧
    (∀ ln o, trip (JVal.str "") ln o = .error (.typeError "invalid id")) ∧
    (∀ o, departures JVal.undefined o = .error (.typeError "invalid stop")) ∧
    (∀ o, arrivals JVal.undefined o = .error (.typeError "invalid stop")) ∧
    (∀ v o, jsTruthy v = false → stop v o = .error (.typeError "invalid id")) ∧
    (∀ v o, jsTruthy v = false → refreshJourney v o = .error (.typeError "invalid ref")) ∧
    (∀ v ln o, jsTruthy v = false → trip v ln o = .error (.typeError "invalid id")) ∧
    (∀ v o, jsTruthy v = false → departures v o = .error (.typeError "invalid stop")) ∧
    (∀ v o, jsTruthy ((jsProp v "id").getD .undefined) = false → jsTypeof v ≠ "string" →
        departures v o = .error (.typeError "invalid stop")) ∧
    (∀ v o, jsTruthy ((jsProp v "id").getD .undefined) = false → jsTypeof v ≠ "string" →
        arrivals v o = .error (.typeError "invalid stop")) := by
  have hgen : ∀ v o, jsTruthy ((jsProp v "id").getD .undefined) = false → jsTypeof v ≠ "string" →
      _stationBoard "arrivals" v o = .error (.typeError "invalid stop") := by
    intro v o h1 h2
    unfold _stationBoard
    by_cases h0 : jsTruthy v
    · simp [h0, h1, h2]
    · simp [h0]
  refine ⟨fun o => rfl, fun o => rfl, fun ln o => rfl, fun o => rfl, fun o => rfl,
    ?_, ?_, ?_, ?_, hgen, hgen⟩
  · intro v o h; simp [stop, h]
  · intro v o h; simp [refreshJourney, h]
  · intro v ln o h; simp [trip, h]
  · intro v o h; simp [departures, _stationBoard, h]

/-- **C7 (witness).** The falsy-argument clause at the concrete inputs
`0` (a falsy number) and `{id: ''}` (an object without a truthy id). -/
theorem claim_c7_witness :
    stop (JVal.num 0) [] = .error (.typeError "invalid id") ∧
    departures (JVal.obj [("id", JVal.str "")]) [] = .error (.typeError "invalid stop") := by
  refine ⟨claim_c7.2.2.2.2.2.1 (JVal.num 0) [] rfl, ?_⟩
  exact claim_c7.2.2.2.2.2.2.2.2.2.1 (JVal.obj [("id", JVal.str "")]) [] rfl (by decide)

/-- **C8.** For every string that parses as an absolute URL, `createClient`
succeeds and returns the client handle; for every string that does not, it
fails synchronously with the `new URL` error, so no request-issuing
operation is reachable (no client handle exists). -/
theorem claim_c8 (s : String) (opt : List (String × JVal)) :
    (∀ u, parseAbsoluteURL s = some u →
        createClient s opt = .ok { endpoint := s, userAgent := "hafas-rest-api-client" }) ∧
    (parseAbsoluteURL s = none → createClient s opt = .error (.typeError "Invalid URL")) := by
  constructor
  · intro u hu
    simp [createClient, hu]
  · intro hu
    simp [createClient, hu]

/-- **C8 (witness).** A real endpoint URL and a localhost endpoint with an
explicit port both construct a client; a non-URL string fails. -/
theorem claim_c8_witness :
    createClient "https://v5.vbb.transport.rest" [] =
      .ok { endpoint := "https://v5.vbb.transport.rest"
          , userAgent := "hafas-rest-api-client" } ∧
    createClient "http://localhost:3000" [] =
      .ok { endpoint := "http://localhost:3000"
          , userAgent := "hafas-rest-api-client" } ∧
    createClient "not a url" [] = .error (.typeError "Invalid URL") := by
  refine ⟨(claim_c8 "https://v5.vbb.transport.rest" []).1
    { scheme := "https", host := "v5.vbb.transport.rest", path := "/", query := none }
    (by decide), (claim_c8 "http://localhost:3000" []).1
    { scheme := "http", host := "localhost", port := some 3000, path := "/", query := none }
    (by decide), (claim_c8 "not a url" []).2 (by decide)⟩

/-- The reassignment `if (stop.id) stop = stop.id` of the station-board
builder: the identifier actually inserted into the path. -/
def stationBoardId (v : JVal) : JVal :=
  if jsTruthy ((jsProp v "id").getD .undefined) then (jsProp v "id").getD .undefined else v

/-- **C9.** Every identifier inserted into a URL path segment — the stop id,
the station-board stop id, the journey ref and the trip id — is passed
through `encodeURIComponent` before insertion; the encoder's output consists
only of kept unreserved characters, percent signs and uppercase hex digits,
and in particular never contains a slash, so an identifier cannot escape its
path segment. -/
theorem claim_c9 :
    (∀ i o spec, stop i o = .ok spec →
        spec.path = "/stops/" ++ encodeURIComponent (jsToString i)) ∧
    (∀ s o spec, departures s o = .ok spec →
        spec.path = "/stops/" ++ encodeURIComponent (jsToString (stationBoardId s))
          ++ "/departures") ∧
    (∀ s o spec, arrivals s o = .ok spec →
        spec.path = "/stops/" ++ encodeURIComponent (jsToString (stationBoardId s))
          ++ "/departures") ∧
    (∀ r o spec, refreshJourney r o = .ok spec →
        spec.path = "/journeys/" ++ encodeURIComponent (jsToString r)) ∧
    (∀ i ln o spec, trip i ln o = .ok spec →
        spec.path = "/trips/" ++ encodeURIComponent (jsToString i)) ∧
    (∀ s2 c, c ∈ (encodeURIComponent s2).toList →
        encodeURIComponentKeeps c = true ∨ c = '%' ∨ c ∈ "0123456789ABCDEF".toList) ∧
    (∀ s2, '/' ∉ (encodeURIComponent s2).toList) := by
  have hboard : ∀ s o spec, _stationBoard "arrivals" s o = .ok spec →
      spec.path = "/stops/" ++ encodeURIComponent (jsToString (stationBoardId s))
        ++ "/departures" := by
    intro s o spec h
    unfold _stationBoard at h
    unfold stationBoardId
    by_cases h1 : jsTruthy s
    · simp only [h1, Bool.not_true, Bool.false_eq_true, if_false, not_false_eq_true, if_true,
        ite_not] at h ⊢
      by_cases h2 : jsTruthy ((jsProp s "id").getD .undefined)
      · simp [h2] at h ⊢
        rw [← h]
      · simp [h2] at h ⊢
        by_cases h3 : jsTypeof s = "string"
        · simp [h3] at h
          rw [← h]
        · simp [h3] at h
    · simp [h1] at h
  refine ⟨?_, hboard, hboard, ?_, ?_, encodeURIComponent_mem, encodeURIComponent_no_slash⟩
  · intro i o spec h
    unfold stop at h
    by_cases h1 : jsTruthy i
    · simp [h1] at h
      rw [← h]
    · simp [h1] at h
  · intro r o spec h
    unfold refreshJourney at h
    by_cases h1 : jsTruthy r
    · simp [h1] at h
      rw [← h]
    · simp [h1] at h
  · intro i ln o spec h
    unfold trip at h
    by_cases h1 : jsTruthy i
    · simp [h1] at h
      rw [← h]
    · simp [h1] at h

/-- **C9 (witness).** A stop id containing a slash is percent-encoded into
its path segment. -/
theorem claim_c9_witness :
    ("/stops/a%2Fb" : String) = "/stops/" ++ encodeURIComponent (jsToString (JVal.str "a/b")) := by
  exact claim_c9.1 (JVal.str "a/b") []
    { path := "/stops/a%2Fb", query := [], opt := {} } rfl

/-- **C10.** Every public operation merges its caller-supplied `opts` into
the query mapping handed to the request primitive — spread into the query
object for `locations`, `nearby`, `stations`, `reachableFrom`, `journeys`,
`trip` and `radar`, and passed as the query mapping itself for `stop`,
`departures`, `arrivals` and `refreshJourney` — and no operation forwards
opts as the transport-options argument (it is always the empty default), so
transport settings supplied in opts are encoded as query parameters while
the built configuration keeps the `follow`/`cors` defaults. -/
theorem claim_c10 :
    (∀ q o, locations q o =
        { path := "/locations", query := objFromEntries (("query", q) :: o), opt := {} }) ∧
    (∀ l o, nearby l o =
        { path := "/stops/nearby", query := objFromEntries (l ++ o), opt := {} }) ∧
    (∀ q o, stations q o =
        { path := "/stations", query := objFromEntries (o ++ [("query", q)]), opt := {} }) ∧
    (∀ l o, reachableFrom l o =
        { path := "/stops/reachable-from", query := objFromEntries (l ++ o), opt := {} }) ∧
    (∀ f t o, journeys f t o =
        { path := "/journeys", query := objFromEntries ([("from", f), ("to", t)] ++ o)
        , opt := {} }) ∧
    (∀ b o, radar b o =
        { path := "/radar", query := objFromEntries (b ++ o), opt := {} }) ∧
    (∀ i o spec, stop i o = .ok spec → spec.query = o ∧ spec.opt = {}) ∧
    (∀ s o spec, departures s o = .ok spec → spec.query = o ∧ spec.opt = {}) ∧
    (∀ s o spec, arrivals s o = .ok spec → spec.query = o ∧ spec.opt = {}) ∧
    (∀ r o spec, refreshJourney r o = .ok spec → spec.query = o ∧ spec.opt = {}) ∧
    (∀ i ln o spec, trip i ln o = .ok spec →
        spec.query = objFromEntries (("lineName", ln) :: o) ∧ spec.opt = {}) ∧
    (∀ q o v, lookupLast o "redirect" = some v →
        objLookup (locations q o).query "redirect" = some v) ∧
    (∀ c path query br, buildRequest c path query {} = some br →
        br.cfg.redirect = "follow" ∧ br.cfg.mode = "cors" ∧ br.cfg.extra = []) := by
  have hboard : ∀ s o spec, _stationBoard "arrivals" s o = .ok spec →
      spec.query = o ∧ spec.opt = {} := by
    intro s o spec h
    unfold _stationBoard at h
    by_cases h1 : jsTruthy s
    · simp [h1] at h
      by_cases h2 : jsTruthy ((jsProp s "id").getD .undefined)
      · simp [h2] at h
        rw [← h]
        exact ⟨rfl, rfl⟩
      · simp [h2] at h
        by_cases h3 : jsTypeof s = "string"
        · simp [h3] at h
          rw [← h]
          exact ⟨rfl, rfl⟩
        · simp [h3] at h
    · simp [h1] at h
  refine ⟨fun _ _ => rfl, fun _ _ => rfl, fun _ _ => rfl, fun _ _ => rfl, fun _ _ _ => rfl,
    fun _ _ => rfl, ?_, hboard, hboard, ?_, ?_, ?_, ?_⟩
  · intro i o spec h
    unfold stop at h
    by_cases h1 : jsTruthy i
    · simp [h1] at h
      rw [← h]
      exact ⟨rfl, rfl⟩
    · simp [h1] at h
  · intro r o spec h
    unfold refreshJourney at h
    by_cases h1 : jsTruthy r
    · simp [h1] at h
      rw [← h]
      exact ⟨rfl, rfl⟩
    · simp [h1] at h
  · intro i ln o spec h
    unfold trip at h
    by_cases h1 : jsTruthy i
    · simp [h1] at h
      rw [← h]
      exact ⟨rfl, rfl⟩
    · simp [h1] at h
  · intro q o v hv
    show objLookup (objFromEntries (("query", q) :: o)) "redirect" = some v
    rw [objLookup_objFromEntries]
    rw [show lookupLast (("query", q) :: o) "redirect"
          = (lookupLast o "redirect").or (if "query" = "redirect" then some q else none) from rfl]
    rw [hv]
    rfl
  · intro c path query br hbr
    unfold buildRequest at hbr
    cases hres : resolveURL path c.endpoint with
    | none => rw [hres] at hbr; exact absurd hbr (by simp)
    | some url =>
      rw [hres] at hbr
      simp only [Option.some.injEq] at hbr
      rw [← hbr]
      exact ⟨rfl, rfl, rfl⟩

/-- **C10 (witness).** A transport-looking `redirect` option passed as opts
to `locations` lands in the query mapping instead of the configuration. -/
theorem claim_c10_witness :
    objLookup (locations (JVal.str "q") [("redirect", JVal.str "manual")]).query "redirect"
      = some (JVal.str "manual") := by
  exact claim_c10.2.2.2.2.2.2.2.2.2.2.2.1 (JVal.str "q")
    [("redirect", JVal.str "manual")] (JVal.str "manual") rfl

end Hafas
